import Mathlib

/-! Verification of the Superset client-side DOM-to-PDF export pipeline
(`superset-frontend/src/utils/pdfUtils.ts` and
`superset-frontend/src/utils/customDomToPdf.ts`).

The TypeScript sources are shallowly embedded:

* canvas pixel data (`Uint8ClampedArray`) becomes `List ℕ`, read in RGBA
  groups of four exactly as the `for (i += 4)` loop of `isCanvasBlank` does;
* pixel geometry (JS numbers) becomes `ℚ`; `Math.floor` is `Int.floor`, and
  the JS `%` operator (on the nonnegative operands that occur here) is
  `jsMod`;
* the vertically stacked children of the staging container become a
  `List Block`; the layout of such a stack assigns each block the running sum
  of the heights of the blocks before it (`layoutFrom`).  The three
  `addPageBreaks` variants found in the sources are embedded separately:
  the single-pass `forEach` variant of `customDomToPdf.ts` (`runForEach`),
  the while-loop variant with the `BOTTOM_BUFFER` safety margin
  (`loopBuffer`), and the row-level while-loop variant (`loopRow`).  The
  while-loop variants are written with explicit fuel because the source
  loops do not advance the cursor after an insertion;
* the page-assembly loop of `customDomToPdf` becomes `countAccepted` /
  `assembleOutcome`, and the promise chain's cleanup behaviour becomes the
  ordered event trace each exit path produces (`overlayEvents`).
-/

namespace PdfExport

/-- A4 page width in points, the constant `A4_WIDTH_PT = 595.28` of the
source. -/
def A4_WIDTH_PT : ℚ := 59528 / 100

/-- A4 page height in points, the constant `A4_HEIGHT_PT = 841.89` of the
source. -/
def A4_HEIGHT_PT : ℚ := 84189 / 100

/-- `isCanvasBlank`, embedded over the flat RGBA byte list of the canvas's
`ImageData`.  The source walks the data four bytes at a time and returns
`false` as soon as `data[i] !== 255 || data[i+1] !== 255 || data[i+2] !== 255
|| data[i+3] !== 0` holds, i.e. a group counts as blank only when
`r = 255 ∧ g = 255 ∧ b = 255 ∧ a = 0`.  A trailing group of fewer than four
entries reads `undefined` in JS, which compares unequal, so it also yields
`false`. -/
def isCanvasBlank : List ℕ → Bool
  | [] => true
  | r :: g :: b :: a :: rest =>
    if r = 255 ∧ g = 255 ∧ b = 255 ∧ a = 0 then isCanvasBlank rest else false
  | _ :: _ => false

/-- `calculatePageHeight(containerWidth, margin)`: converts the printable A4
height to pixels using the scale `containerWidth / (A4_WIDTH_PT - margin*2)`
and floors the result, exactly as the source. -/
def calculatePageHeight (containerWidth margin : ℚ) : ℤ :=
  let pageWidthPt := A4_WIDTH_PT - margin * 2
  let scale := containerWidth / pageWidthPt
  let pageHeightPt := A4_HEIGHT_PT - margin * 2
  ⌊pageHeightPt * scale⌋

/-- The JS `%` operator restricted to the nonnegative operands used by the
page-break code: `a % b = a - b * Math.floor(a / b)` for `a ≥ 0, b > 0`. -/
def jsMod (a b : ℚ) : ℚ := a - b * ⌊a / b⌋

/-- The placement rectangle passed to `pdf.addImage`. -/
structure Placement where
  x : ℚ
  y : ℚ
  w : ℚ
  h : ℚ
deriving DecidableEq

/-- The aspect-fit logic of `customDomToPdf`: compares the slice's aspect
quotient with the printable area's and picks a placement.  Both source
branches assign `finalWidth = pdfWidth`, `finalHeight = pdfWidth /
imgAspectRatio`, `xOffset = margin`, `yOffset = margin`; the embedding keeps
the conditional with its two (identical) arms as written. -/
def fitPlacement (margin cw ch : ℚ) : Placement :=
  let pdfWidth := A4_WIDTH_PT - margin * 2
  let pdfHeight := A4_HEIGHT_PT - margin * 2
  let imgAspect := cw / ch
  let pdfAspect := pdfWidth / pdfHeight
  if pdfAspect < imgAspect then
    { x := margin, y := margin, w := pdfWidth, h := pdfWidth / imgAspect }
  else
    { x := margin, y := margin, w := pdfWidth, h := pdfWidth / imgAspect }

/-- Claim C1: the source classifies a canvas as blank only when every RGBA
group is simultaneously white and fully transparent (`a = 0`), because the
loop tests `data[i+3] !== 0`.  Hence a 1×1 all-white fully-opaque canvas
(`[255,255,255,255]`) is classified NON-blank, contradicting the claim (and
the function's own doc comment, which says blank means "all pixels are
transparent or white"); only a white transparent pixel passes. -/
theorem isCanvasBlank_white_opaque_not_blank :
    isCanvasBlank [255, 255, 255, 255] = false
      ∧ isCanvasBlank [255, 255, 255, 0] = true := by
  constructor <;> decide

/-- Claim C8: for a fixed margin with positive printable width and height,
`calculatePageHeight` is monotone non-decreasing in the container width, and
its value times the printable width equals the printable height times the
container width up to the floor rounding error of one pixel (one pixel of
the result corresponds to `A4_WIDTH_PT - 2*margin` in the product). -/
theorem calculatePageHeight_monotone_and_floor_exact
    (m w w1 w2 : ℚ) (hW : m * 2 < A4_WIDTH_PT) (hH : m * 2 < A4_HEIGHT_PT)
    (h12 : w1 ≤ w2) :
    calculatePageHeight w1 m ≤ calculatePageHeight w2 m
      ∧ (A4_HEIGHT_PT - m * 2) * w - (A4_WIDTH_PT - m * 2)
          < (calculatePageHeight w m : ℚ) * (A4_WIDTH_PT - m * 2)
      ∧ (calculatePageHeight w m : ℚ) * (A4_WIDTH_PT - m * 2)
          ≤ (A4_HEIGHT_PT - m * 2) * w := by
  have hpW : (0 : ℚ) < A4_WIDTH_PT - m * 2 := by linarith
  have hpH : (0 : ℚ) < A4_HEIGHT_PT - m * 2 := by linarith
  have hval : ∀ u : ℚ,
      calculatePageHeight u m
        = ⌊(A4_HEIGHT_PT - m * 2) * (u / (A4_WIDTH_PT - m * 2))⌋ :=
    fun u => rfl
  have hprod : ((A4_HEIGHT_PT - m * 2) * (w / (A4_WIDTH_PT - m * 2)))
      * (A4_WIDTH_PT - m * 2) = (A4_HEIGHT_PT - m * 2) * w := by
    field_simp
  refine ⟨?_, ?_, ?_⟩
  · rw [hval, hval]
    apply Int.floor_le_floor
    exact mul_le_mul_of_nonneg_left
      ((div_le_div_iff_of_pos_right hpW).mpr h12) hpH.le
  · rw [hval]
    have hlt := Int.lt_floor_add_one
      ((A4_HEIGHT_PT - m * 2) * (w / (A4_WIDTH_PT - m * 2)))
    have := mul_lt_mul_of_pos_right hlt hpW
    rw [hprod] at this
    have hexp : ((⌊(A4_HEIGHT_PT - m * 2) * (w / (A4_WIDTH_PT - m * 2))⌋ : ℚ)
        + 1) * (A4_WIDTH_PT - m * 2)
        = (⌊(A4_HEIGHT_PT - m * 2) * (w / (A4_WIDTH_PT - m * 2))⌋ : ℚ)
            * (A4_WIDTH_PT - m * 2) + (A4_WIDTH_PT - m * 2) := by ring
    rw [hexp] at this
    linarith
  · rw [hval]
    have hle := Int.floor_le
      ((A4_HEIGHT_PT - m * 2) * (w / (A4_WIDTH_PT - m * 2)))
    have := mul_le_mul_of_nonneg_right hle hpW.le
    rw [hprod] at this
    exact this

/-- Witness for C8 at margin 10 and container widths 800 ≤ 900. -/
theorem calculatePageHeight_monotone_witness :
    ((10 : ℚ) * 2 < A4_WIDTH_PT ∧ (10 : ℚ) * 2 < A4_HEIGHT_PT
        ∧ (800 : ℚ) ≤ 900)
      ∧ (calculatePageHeight 800 10 ≤ calculatePageHeight 900 10
          ∧ (A4_HEIGHT_PT - 10 * 2) * 800 - (A4_WIDTH_PT - 10 * 2)
              < (calculatePageHeight 800 10 : ℚ) * (A4_WIDTH_PT - 10 * 2)
          ∧ (calculatePageHeight 800 10 : ℚ) * (A4_WIDTH_PT - 10 * 2)
              ≤ (A4_HEIGHT_PT - 10 * 2) * 800) :=
  ⟨⟨by norm_num [A4_WIDTH_PT], by norm_num [A4_HEIGHT_PT], by norm_num⟩,
    calculatePageHeight_monotone_and_floor_exact 10 800 800 900
      (by norm_num [A4_WIDTH_PT]) (by norm_num [A4_HEIGHT_PT]) (by norm_num)⟩

/-- Claim C9: under the PageFormat invariant `2*margin < A4_WIDTH_PT` and
`2*margin < A4_HEIGHT_PT`, and a nonnegative container width, the divisor of
`calculatePageHeight` is nonzero and the result is a nonnegative integer;
without the invariant the divisor can be exactly zero (margin `297.64`) and
the result can be negative (margin `300`). -/
theorem calculatePageHeight_division_safety (m w : ℚ)
    (hW : m * 2 < A4_WIDTH_PT) (hH : m * 2 < A4_HEIGHT_PT) (hw : 0 ≤ w) :
    A4_WIDTH_PT - m * 2 ≠ 0
      ∧ 0 ≤ calculatePageHeight w m
      ∧ A4_WIDTH_PT - (29764 / 100 : ℚ) * 2 = 0
      ∧ calculatePageHeight 100 300 < 0 := by
  have hpW : (0 : ℚ) < A4_WIDTH_PT - m * 2 := by linarith
  have hpH : (0 : ℚ) < A4_HEIGHT_PT - m * 2 := by linarith
  have hneg : calculatePageHeight 100 300 = -5125 := by
    norm_num [calculatePageHeight, A4_WIDTH_PT, A4_HEIGHT_PT, Int.floor_eq_iff]
  refine ⟨hpW.ne', ?_, by norm_num [A4_WIDTH_PT], by rw [hneg]; norm_num⟩
  have hval : calculatePageHeight w m
      = ⌊(A4_HEIGHT_PT - m * 2) * (w / (A4_WIDTH_PT - m * 2))⌋ := rfl
  rw [hval]
  exact Int.le_floor.mpr (by
    push_cast
    exact mul_nonneg hpH.le (div_nonneg hw hpW.le))

/-- Witness for C9 at margin 10 and container width 0. -/
theorem calculatePageHeight_division_safety_witness :
    ((10 : ℚ) * 2 < A4_WIDTH_PT ∧ (10 : ℚ) * 2 < A4_HEIGHT_PT
        ∧ (0 : ℚ) ≤ 0)
      ∧ (A4_WIDTH_PT - 10 * 2 ≠ 0
          ∧ 0 ≤ calculatePageHeight 0 10
          ∧ A4_WIDTH_PT - (29764 / 100 : ℚ) * 2 = 0
          ∧ calculatePageHeight 100 300 < 0) :=
  ⟨⟨by norm_num [A4_WIDTH_PT], by norm_num [A4_HEIGHT_PT], le_refl 0⟩,
    calculatePageHeight_division_safety 10 0 (by norm_num [A4_WIDTH_PT])
      (by norm_num [A4_HEIGHT_PT]) (le_refl 0)⟩

/-- Claim C10: both arms of the aspect-fit conditional compute the same
placement — `x = margin`, `y = margin`, `w = A4_WIDTH_PT - 2*margin`,
`h = w / (cw/ch)` — and whenever the slice's aspect quotient is below the
printable area's, the placed height strictly exceeds the printable height
`A4_HEIGHT_PT - 2*margin` (no clamping or centering happens). -/
theorem fit_placement_branches_identical (margin cw ch : ℚ)
    (hW : margin * 2 < A4_WIDTH_PT) (hH : margin * 2 < A4_HEIGHT_PT)
    (hcw : 0 < cw) (hch : 0 < ch) :
    fitPlacement margin cw ch
        = { x := margin, y := margin, w := A4_WIDTH_PT - margin * 2,
            h := (A4_WIDTH_PT - margin * 2) / (cw / ch) }
      ∧ (cw / ch < (A4_WIDTH_PT - margin * 2) / (A4_HEIGHT_PT - margin * 2) →
          A4_HEIGHT_PT - margin * 2 < (fitPlacement margin cw ch).h) := by
  have hpW : (0 : ℚ) < A4_WIDTH_PT - margin * 2 := by linarith
  have hpH : (0 : ℚ) < A4_HEIGHT_PT - margin * 2 := by linarith
  have ha : (0 : ℚ) < cw / ch := div_pos hcw hch
  have hfit : fitPlacement margin cw ch
      = { x := margin, y := margin, w := A4_WIDTH_PT - margin * 2,
          h := (A4_WIDTH_PT - margin * 2) / (cw / ch) } := by
    unfold fitPlacement
    exact ite_self _
  refine ⟨hfit, fun hlt => ?_⟩
  rw [hfit]
  show A4_HEIGHT_PT - margin * 2 < (A4_WIDTH_PT - margin * 2) / (cw / ch)
  rw [lt_div_iff₀ ha]
  rw [lt_div_iff₀ hpH] at hlt
  linarith

/-- Witness for C10 at margin 10 and a tall 100×400 slice. -/
theorem fit_placement_witness :
    ((10 : ℚ) * 2 < A4_WIDTH_PT ∧ (10 : ℚ) * 2 < A4_HEIGHT_PT
        ∧ (0 : ℚ) < 100 ∧ (0 : ℚ) < 400)
      ∧ (fitPlacement 10 100 400
            = { x := 10, y := 10, w := A4_WIDTH_PT - 10 * 2,
                h := (A4_WIDTH_PT - 10 * 2) / ((100 : ℚ) / 400) }
          ∧ ((100 : ℚ) / 400
                < (A4_WIDTH_PT - 10 * 2) / (A4_HEIGHT_PT - 10 * 2) →
              A4_HEIGHT_PT - 10 * 2 < (fitPlacement 10 100 400).h)) :=
  ⟨⟨by norm_num [A4_WIDTH_PT], by norm_num [A4_HEIGHT_PT], by norm_num,
      by norm_num⟩,
    fit_placement_branches_identical 10 100 400
      (by norm_num [A4_WIDTH_PT]) (by norm_num [A4_HEIGHT_PT]) (by norm_num)
      (by norm_num)⟩

/-- One child of the staging container: either a layout unit (a dashboard
row / chart element considered atomic for pagination), or one of the two
kinds of spacer divs the page-break code inserts, distinguished by their
marker classes `custom-pdf-page-break-spacer` (`Block.spacer`) and
`custom-pdf-page-padding-top` (`Block.padTop`). -/
inductive Block
  | unit (height : ℚ)
  | spacer (height : ℚ)
  | padTop (height : ℚ)
deriving DecidableEq

/-- The rendered height of a block, `getBoundingClientRect().height`. -/
def Block.height : Block → ℚ
  | Block.unit h => h
  | Block.spacer h => h
  | Block.padTop h => h

/-- Positions of vertically stacked blocks: each block's `relativeTop` is
the running sum of the heights of the blocks before it, starting from `t`;
paired with the block itself. -/
def layoutFrom : ℚ → List Block → List (ℚ × Block)
  | _, [] => []
  | t, b :: rest => (t, b) :: layoutFrom (t + b.height) rest

/-- The push decision of the single-pass `forEach` variant of
`addPageBreaks` (`customDomToPdf.ts`): the element starts and ends on
different pages (`startPage !== endPage`) and is not page-sized
(`height < pageHeight`). -/
def forEachPush (ph t h : ℚ) : Prop :=
  ⌊t / ph⌋ ≠ ⌊(t + h) / ph⌋ ∧ h < ph

instance (ph t h : ℚ) : Decidable (forEachPush ph t h) :=
  inferInstanceAs (Decidable (_ ∧ _))

/-- The single-pass `forEach` variant of `addPageBreaks`
(`customDomToPdf.ts`), over the fallback element set: the direct children of
the container, all of them, in document order — this variant has no
spacer-class or visibility guards.  `t` is the `relativeTop` of the next
child (the source re-measures `getBoundingClientRect` inside the loop, so
earlier insertions are reflected in `t`).  A pushed child receives a fill
spacer of height `pageHeight - relativeTop % pageHeight` followed by a
`topPadding` spacer, both inserted immediately before it; the cursor then
moves on (the `forEach` never revisits a child). -/
def runForEach (ph tp : ℚ) : ℚ → List Block → List Block
  | _, [] => []
  | t, b :: rest =>
    if forEachPush ph t (Block.height b) then
      let rem := ph - jsMod t ph
      Block.spacer rem :: Block.padTop tp :: b ::
        runForEach ph tp (t + rem + tp + Block.height b) rest
    else
      b :: runForEach ph tp (t + Block.height b) rest

/-- `addPageBreaks` of `customDomToPdf.ts` applied to the container, whose
own top is the origin of relative positions. -/
def addPageBreaksForEach (ph tp : ℚ) (blocks : List Block) : List Block :=
  runForEach ph tp 0 blocks

/-- Number of spacer elements (of either marker class) in a container. -/
def spacerCount : List Block → ℕ
  | [] => 0
  | Block.unit _ :: rest => spacerCount rest
  | Block.spacer _ :: rest => spacerCount rest + 1
  | Block.padTop _ :: rest => spacerCount rest + 1

/-- The push decision of the `BOTTOM_BUFFER` while-loop variant of
`addPageBreaks` (`pdfUtils.ts`): push when the element crosses a page
boundary or the remaining space on its page is smaller than its height plus
the 30 px safety buffer, unless the element is taller than a page. -/
def bufferPush (ph t h : ℚ) : Prop :=
  (⌊t / ph⌋ ≠ ⌊(t + h) / ph⌋ ∨ ph - jsMod t ph < h + 30) ∧ ¬ph < h

instance (ph t h : ℚ) : Decidable (bufferPush ph t h) :=
  inferInstanceAs (Decidable (_ ∧ _))

/-- The `BOTTOM_BUFFER` while-loop variant of `addPageBreaks`
(`pdfUtils.ts`).  The source loop does not advance the cursor after an
insertion (`continue` without `i += 1`), so it has no a-priori bound; the
embedding takes explicit fuel and returns `none` exactly when the fuel runs
out before the cursor passes the end.  Children carrying a spacer marker
class are skipped, children shorter than 10 px are skipped, and a pushed
child is re-processed at its shifted position. -/
def loopBuffer (ph tp : ℚ) : ℕ → ℚ → List Block → Option (List Block)
  | _, _, [] => some []
  | 0, _, _ :: _ => none
  | fuel + 1, t, Block.spacer h :: rest =>
    (loopBuffer ph tp fuel (t + h) rest).map (Block.spacer h :: ·)
  | fuel + 1, t, Block.padTop h :: rest =>
    (loopBuffer ph tp fuel (t + h) rest).map (Block.padTop h :: ·)
  | fuel + 1, t, Block.unit h :: rest =>
    if h < 10 then
      (loopBuffer ph tp fuel (t + h) rest).map (Block.unit h :: ·)
    else if bufferPush ph t h then
      let rem := ph - jsMod t ph
      (loopBuffer ph tp fuel (t + rem + tp) (Block.unit h :: rest)).map
        (fun out => Block.spacer rem :: Block.padTop tp :: out)
    else
      (loopBuffer ph tp fuel (t + h) rest).map (Block.unit h :: ·)

/-- The push decision of the row-level while-loop variant of `addPageBreaks`
(`pdfUtils.ts`): the element crosses a page boundary, is not taller than
90% of a page (`isTooLargeToFit`), and more than 50 px of it would land on
the next page (`isSignificantlyCut`). -/
def rowPush (ph t h : ℚ) : Prop :=
  ⌊t / ph⌋ ≠ ⌊(t + h) / ph⌋ ∧ ¬ph * (9 / 10) < h
    ∧ 50 < h - (ph - jsMod t ph)

instance (ph t h : ℚ) : Decidable (rowPush ph t h) :=
  inferInstanceAs (Decidable (_ ∧ _))

/-- The row-level while-loop variant of `addPageBreaks` (`pdfUtils.ts`),
with the same cursor discipline and skip guards as `loopBuffer` but the
row-level push decision `rowPush`. -/
def loopRow (ph tp : ℚ) : ℕ → ℚ → List Block → Option (List Block)
  | _, _, [] => some []
  | 0, _, _ :: _ => none
  | fuel + 1, t, Block.spacer h :: rest =>
    (loopRow ph tp fuel (t + h) rest).map (Block.spacer h :: ·)
  | fuel + 1, t, Block.padTop h :: rest =>
    (loopRow ph tp fuel (t + h) rest).map (Block.padTop h :: ·)
  | fuel + 1, t, Block.unit h :: rest =>
    if h < 10 then
      (loopRow ph tp fuel (t + h) rest).map (Block.unit h :: ·)
    else if rowPush ph t h then
      let rem := ph - jsMod t ph
      (loopRow ph tp fuel (t + rem + tp) (Block.unit h :: rest)).map
        (fun out => Block.spacer rem :: Block.padTop tp :: out)
    else
      (loopRow ph tp fuel (t + h) rest).map (Block.unit h :: ·)

/-- For a positive modulus the JS remainder is nonnegative. -/
theorem jsMod_nonneg (a b : ℚ) (hb : 0 < b) : 0 ≤ jsMod a b := by
  have hfl := Int.floor_le (a / b)
  have hmul := mul_le_mul_of_nonneg_left hfl hb.le
  have hba : b * (a / b) = a := by field_simp
  rw [hba] at hmul
  unfold jsMod
  linarith

/-- For a positive modulus the JS remainder is below the modulus. -/
theorem jsMod_lt (a b : ℚ) (hb : 0 < b) : jsMod a b < b := by
  have hfl := Int.lt_floor_add_one (a / b)
  have hmul := mul_lt_mul_of_pos_left hfl hb
  have hba : b * (a / b) = a := by field_simp
  rw [hba] at hmul
  unfold jsMod
  linarith

/-- Floor of `(ph*K + r)/ph` is `K` whenever `0 ≤ r < ph`. -/
theorem floor_offset_eval (ph r : ℚ) (K : ℤ) (hph : 0 < ph) (hr : 0 ≤ r)
    (hrp : r < ph) : ⌊(ph * K + r) / ph⌋ = K := by
  have h1 : (ph * K + r) / ph = r / ph + K := by
    field_simp
    ring
  rw [h1, Int.floor_add_int, Int.floor_eq_zero_iff.mpr, zero_add]
  exact Set.mem_Ico.mpr ⟨div_nonneg hr hph.le, (div_lt_one hph).mpr hrp⟩

/-- Inserting the fill spacer places the pushed element exactly at the next
page boundary: `t + (ph - t % ph) = ph * (⌊t/ph⌋ + 1)`. -/
theorem top_after_fill (ph t : ℚ) :
    t + (ph - jsMod t ph) = ph * (⌊t / ph⌋ + 1 : ℤ) := by
  unfold jsMod
  push_cast
  ring

/-- No-straddle invariant of the `forEach` variant, generalized over the
starting offset: every unit of height below `pageHeight - topPadding` in the
output starts and ends on the same page. -/
theorem runForEach_no_straddle_aux (ph tp : ℚ) (hph : 0 < ph) (htp : 0 ≤ tp)
    (htpp : tp < ph) :
    ∀ (xs : List Block) (t0 t h : ℚ),
      (∀ b ∈ xs, 0 ≤ Block.height b) →
      (t, Block.unit h) ∈ layoutFrom t0 (runForEach ph tp t0 xs) →
      h < ph - tp → ⌊t / ph⌋ = ⌊(t + h) / ph⌋ := by
  intro xs
  induction xs with
  | nil =>
    intro t0 t h _ hmem _
    simp [runForEach, layoutFrom] at hmem
  | cons b rest ih =>
    intro t0 t h hhts hmem hlt
    have hb0 : 0 ≤ Block.height b := hhts b (List.mem_cons_self b rest)
    have hrest : ∀ x ∈ rest, 0 ≤ Block.height x :=
      fun x hx => hhts x (List.mem_cons_of_mem b hx)
    by_cases hpush : forEachPush ph t0 (Block.height b)
    · rw [runForEach, if_pos hpush] at hmem
      simp only [layoutFrom, Block.height, List.mem_cons] at hmem
      rcases hmem with h1 | h2 | h3 | h4
      · exact absurd (congrArg Prod.snd h1) (by simp)
      · exact absurd (congrArg Prod.snd h2) (by simp)
      · -- the pushed element itself, now at the next page boundary + padding
        have hts : t = t0 + (ph - jsMod t0 ph) + tp :=
          congrArg Prod.fst h3
        have hbu : Block.unit h = b := congrArg Prod.snd h3
        have hh0 : 0 ≤ h := by
          have := hb0
          rw [← hbu] at this
          simpa [Block.height] using this
        have hKt : t = ph * ((⌊t0 / ph⌋ + 1 : ℤ) : ℚ) + tp := by
          rw [hts, add_right_comm ..]
          have := top_after_fill ph t0
          push_cast
          push_cast at this
          linarith
        have hfl1 : ⌊t / ph⌋ = ⌊t0 / ph⌋ + 1 := by
          rw [hKt]
          exact floor_offset_eval ph tp _ hph htp htpp
        have hfl2 : ⌊(t + h) / ph⌋ = ⌊t0 / ph⌋ + 1 := by
          have ht2 : t + h = ph * ((⌊t0 / ph⌋ + 1 : ℤ) : ℚ) + (tp + h) := by
            rw [hKt]; ring
          rw [ht2]
          exact floor_offset_eval ph (tp + h) _ hph (by linarith) (by linarith)
        rw [hfl1, hfl2]
      · exact ih _ t h hrest h4 hlt
    · rw [runForEach, if_neg hpush] at hmem
      simp only [layoutFrom, List.mem_cons] at hmem
      rcases hmem with h1 | h2
      · have hts : t = t0 := congrArg Prod.fst h1
        have hbu : Block.unit h = b := congrArg Prod.snd h1
        have hhb : Block.height b = h := by rw [← hbu, Block.height]
        rw [hhb] at hpush
        unfold forEachPush at hpush
        push_neg at hpush
        subst hts
        by_contra hne
        exact absurd (hpush hne) (by linarith)
      · exact ih _ t h hrest h2 hlt

/-- Claim C2 (amended): in the `forEach` variant of `addPageBreaks`, every
layout unit whose height is below `pageHeight - topPadding` starts and ends
on the same page index of the output.  (The claim's original threshold
`pageHeight` fails: see the counterexample.) -/
theorem forEach_no_straddle_below_page_minus_padding
    (ph tp : ℚ) (xs : List Block)
    (hph : 0 < ph) (htp : 0 ≤ tp) (htpp : tp < ph)
    (hhts : ∀ b ∈ xs, 0 ≤ Block.height b) :
    ∀ t h, (t, Block.unit h) ∈ layoutFrom 0 (addPageBreaksForEach ph tp xs) →
      h < ph - tp → ⌊t / ph⌋ = ⌊(t + h) / ph⌋ :=
  fun t h hmem hlt =>
    runForEach_no_straddle_aux ph tp hph htp htpp xs 0 t h hhts hmem hlt

/-- Claim C2 counterexample: with pageHeight 700 and topPadding 32, a unit
of height 690 < 700 (below the oversize threshold) still straddles a page
boundary after `addPageBreaks`: it is pushed to relativeTop 732, so its top
is on page 1 while its bottom 1422 is on page 2. -/
theorem unit_below_page_height_straddles :
    ((732 : ℚ), Block.unit 690) ∈
        layoutFrom 0
          (addPageBreaksForEach 700 32 [Block.unit 20, Block.unit 690])
      ∧ (690 : ℚ) < 700
      ∧ ⌊(732 : ℚ) / 700⌋ ≠ ⌊((732 : ℚ) + 690) / 700⌋ := by
  refine ⟨?_, by norm_num, by norm_num [Int.floor_eq_iff]⟩
  norm_num [addPageBreaksForEach, runForEach, forEachPush, jsMod, layoutFrom,
    Block.height, Int.floor_eq_iff]

/-- Witness for C2 at pageHeight 700, topPadding 32, units 20 and 100. -/
theorem forEach_no_straddle_witness :
    ((0 : ℚ) < 700 ∧ (0 : ℚ) ≤ 32 ∧ (32 : ℚ) < 700
        ∧ ∀ b ∈ [Block.unit 20, Block.unit 100], 0 ≤ Block.height b)
      ∧ ∀ t h,
          (t, Block.unit h) ∈
              layoutFrom 0
                (addPageBreaksForEach 700 32 [Block.unit 20, Block.unit 100]) →
          h < 700 - 32 → ⌊t / 700⌋ = ⌊(t + h) / 700⌋ :=
  ⟨⟨by norm_num, by norm_num, by norm_num,
      by
        intro b hb
        simp only [List.mem_cons, List.not_mem_nil, or_false] at hb
        rcases hb with rfl | rfl <;> norm_num [Block.height]⟩,
    forEach_no_straddle_below_page_minus_padding 700 32 _
      (by norm_num) (by norm_num) (by norm_num)
      (by
        intro b hb
        simp only [List.mem_cons, List.not_mem_nil, or_false] at hb
        rcases hb with rfl | rfl <;> norm_num [Block.height])⟩

/-- With pageHeight 700, a visible unit of height 680 satisfies the buffer
variant's push condition at every position: the remaining space on any page
is at most 700, which is always smaller than 680 + 30. -/
theorem bufferPush_unit_680 (t : ℚ) : bufferPush 700 t 680 := by
  refine ⟨Or.inr ?_, by norm_num⟩
  have h := jsMod_nonneg t 700 (by norm_num)
  linarith

/-- The buffer-variant cursor never advances past a unit of height 680 with
pageHeight 700: every push re-triggers, so every amount of fuel runs out. -/
theorem loopBuffer_stuck_680 (f : ℕ) :
    ∀ t : ℚ, loopBuffer 700 32 f t [Block.unit 680] = none := by
  induction f with
  | zero => intro t; rfl
  | succ f ih =>
    intro t
    rw [loopBuffer, if_neg (by norm_num), if_pos (bufferPush_unit_680 t)]
    simp only [ih, Option.map_none']

/-- Claim C5: the `BOTTOM_BUFFER` while-loop variant of `addPageBreaks` does
NOT always terminate.  A single visible unit of height 680 with
pageHeight 700 and topPadding 32 is pushed at every re-measurement (the
remaining space on a page is at most 700 < 680 + 30 and the unit is not
taller than a page), so the cursor never passes the end: the loop runs out
of any finite fuel. -/
theorem buffer_loop_diverges_on_near_page_height_unit :
    ∀ fuel : ℕ, loopBuffer 700 32 fuel 0 [Block.unit 680] = none :=
  fun fuel => loopBuffer_stuck_680 fuel 0

/-- Claim C6: a layout unit taller than the variant's oversize threshold is
never pushed — no spacers are inserted before it and the cursor simply
advances.  The threshold is `pageHeight` for the `forEach` variant
(`height < pageHeight` gate), `pageHeight` for the buffer variant
(`isTallerThanPage`), and `0.9 * pageHeight` for the row-level variant
(`isTooLargeToFit`). -/
theorem oversized_unit_never_pushed (ph tp t h : ℚ) (rest : List Block)
    (fuel : ℕ) (_hph : 0 < ph) :
    (ph ≤ h →
        runForEach ph tp t (Block.unit h :: rest)
          = Block.unit h :: runForEach ph tp (t + h) rest)
      ∧ (ph < h →
          loopBuffer ph tp (fuel + 1) t (Block.unit h :: rest)
            = (loopBuffer ph tp fuel (t + h) rest).map (Block.unit h :: ·))
      ∧ (ph * (9 / 10) < h →
          loopRow ph tp (fuel + 1) t (Block.unit h :: rest)
            = (loopRow ph tp fuel (t + h) rest).map (Block.unit h :: ·)) := by
  refine ⟨fun hfe => ?_, fun hbuf => ?_, fun hrow => ?_⟩
  · have hnp : ¬forEachPush ph t (Block.height (Block.unit h)) := by
      simp only [Block.height, forEachPush, not_and]
      intro _
      exact not_lt.mpr hfe
    rw [runForEach, if_neg hnp]
    simp [Block.height]
  · by_cases hsmall : h < 10
    · rw [loopBuffer, if_pos hsmall]
    · rw [loopBuffer, if_neg hsmall, if_neg]
      intro hpush
      exact hpush.2 hbuf
  · by_cases hsmall : h < 10
    · rw [loopRow, if_pos hsmall]
    · rw [loopRow, if_neg hsmall, if_neg]
      intro hpush
      exact hpush.2.1 hrow

/-- Witness for C6 at pageHeight 700, topPadding 32, a unit of height 800
at relativeTop 5, fuel 3. -/
theorem oversized_unit_never_pushed_witness :
    ((0 : ℚ) < 700)
      ∧ (((700 : ℚ) ≤ 800 →
            runForEach 700 32 5 (Block.unit 800 :: [])
              = Block.unit 800 :: runForEach 700 32 (5 + 800) [])
          ∧ ((700 : ℚ) < 800 →
              loopBuffer 700 32 (3 + 1) 5 (Block.unit 800 :: [])
                = (loopBuffer 700 32 3 (5 + 800) []).map (Block.unit 800 :: ·))
          ∧ ((700 : ℚ) * (9 / 10) < 800 →
              loopRow 700 32 (3 + 1) 5 (Block.unit 800 :: [])
                = (loopRow 700 32 3 (5 + 800) []).map (Block.unit 800 :: ·))) :=
  ⟨by norm_num,
    oversized_unit_never_pushed 700 32 5 800 [] 3 (by norm_num)⟩

/-- Claim C7 counterexample: the `forEach` variant of `addPageBreaks` has no
spacer-skip guard, so a second run over an already-annotated container
processes the previously inserted fill spacer (whose bottom lies exactly on
a page boundary, making `startPage !== endPage`) and inserts four more
spacer elements: the first run of `[unit 100, unit 650]` with
pageHeight 700 / topPadding 32 produces 2 spacers, the second run 6. -/
theorem forEach_second_run_adds_spacers :
    spacerCount
        (addPageBreaksForEach 700 32
          (addPageBreaksForEach 700 32 [Block.unit 100, Block.unit 650])) = 6
      ∧ spacerCount
          (addPageBreaksForEach 700 32 [Block.unit 100, Block.unit 650])
        = 2 := by
  have h1 : addPageBreaksForEach 700 32 [Block.unit 100, Block.unit 650]
      = [Block.unit 100, Block.spacer 600, Block.padTop 32,
          Block.unit 650] := by
    norm_num [addPageBreaksForEach, runForEach, forEachPush, jsMod,
      Block.height, Int.floor_eq_iff]
  have h2 : addPageBreaksForEach 700 32
        [Block.unit 100, Block.spacer 600, Block.padTop 32, Block.unit 650]
      = [Block.unit 100, Block.spacer 600, Block.padTop 32, Block.spacer 600,
          Block.padTop 32, Block.spacer 36, Block.padTop 32,
          Block.unit 650] := by
    norm_num [addPageBreaksForEach, runForEach, forEachPush, jsMod,
      Block.height, Int.floor_eq_iff]
  rw [h1, h2]
  constructor <;> rfl

/-- Re-running the row-level while-loop variant on its own output (with
enough fuel to traverse it once) returns the output unchanged: spacers are
skipped by the marker-class guard, and every unit is re-checked at the same
position at which the first run's final visit declined to push.  Stated
generalized over the cursor offset `t`; induction on the first run's
fuel. -/
theorem loopRow_rerun (ph tp : ℚ) :
    ∀ (f : ℕ) (t : ℚ) (xs out : List Block) (g : ℕ),
      loopRow ph tp f t xs = some out → out.length ≤ g →
      loopRow ph tp g t out = some out := by
  intro f
  induction f with
  | zero =>
    intro t xs out g hrun _
    cases xs with
    | nil =>
      simp only [loopRow, Option.some.injEq] at hrun
      subst hrun
      cases g <;> rfl
    | cons b rest => cases hrun
  | succ f ih =>
    intro t xs out g hrun hg
    cases xs with
    | nil =>
      simp only [loopRow, Option.some.injEq] at hrun
      subst hrun
      cases g <;> rfl
    | cons b rest =>
      cases b with
      | spacer h =>
        rw [loopRow] at hrun
        rcases Option.map_eq_some'.mp hrun with ⟨out', hin, hout⟩
        subst hout
        cases g with
        | zero => simp only [List.length_cons] at hg; omega
        | succ g' =>
          rw [loopRow, ih (t + h) rest out' g' hin
            (by simp only [List.length_cons] at hg; omega)]
          rfl
      | padTop h =>
        rw [loopRow] at hrun
        rcases Option.map_eq_some'.mp hrun with ⟨out', hin, hout⟩
        subst hout
        cases g with
        | zero => simp only [List.length_cons] at hg; omega
        | succ g' =>
          rw [loopRow, ih (t + h) rest out' g' hin
            (by simp only [List.length_cons] at hg; omega)]
          rfl
      | unit h =>
        by_cases hsmall : h < 10
        · rw [loopRow, if_pos hsmall] at hrun
          rcases Option.map_eq_some'.mp hrun with ⟨out', hin, hout⟩
          subst hout
          cases g with
          | zero => simp only [List.length_cons] at hg; omega
          | succ g' =>
            rw [loopRow, if_pos hsmall,
              ih (t + h) rest out' g' hin
                (by simp only [List.length_cons] at hg; omega)]
            rfl
        · by_cases hpush : rowPush ph t h
          · rw [loopRow, if_neg hsmall, if_pos hpush] at hrun
            rcases Option.map_eq_some'.mp hrun with ⟨out'', hin, hout⟩
            subst hout
            cases g with
            | zero => simp only [List.length_cons] at hg; omega
            | succ g' =>
              cases g' with
              | zero => simp only [List.length_cons] at hg; omega
              | succ g'' =>
                rw [loopRow, loopRow,
                  ih (t + (ph - jsMod t ph) + tp) (Block.unit h :: rest)
                    out'' g'' hin
                    (by simp only [List.length_cons] at hg; omega)]
                rfl
          · rw [loopRow, if_neg hsmall, if_neg hpush] at hrun
            rcases Option.map_eq_some'.mp hrun with ⟨out', hin, hout⟩
            subst hout
            cases g with
            | zero => simp only [List.length_cons] at hg; omega
            | succ g' =>
              rw [loopRow, if_neg hsmall, if_neg hpush,
                ih (t + h) rest out' g' hin
                  (by simp only [List.length_cons] at hg; omega)]
              rfl

/-- The same re-run property for the `BOTTOM_BUFFER` while-loop variant.
The argument is identical to `loopRow_rerun`: it only uses that the push
decision is a function of the (unchanged) position and height. -/
theorem loopBuffer_rerun (ph tp : ℚ) :
    ∀ (f : ℕ) (t : ℚ) (xs out : List Block) (g : ℕ),
      loopBuffer ph tp f t xs = some out → out.length ≤ g →
      loopBuffer ph tp g t out = some out := by
  intro f
  induction f with
  | zero =>
    intro t xs out g hrun _
    cases xs with
    | nil =>
      simp only [loopBuffer, Option.some.injEq] at hrun
      subst hrun
      cases g <;> rfl
    | cons b rest => cases hrun
  | succ f ih =>
    intro t xs out g hrun hg
    cases xs with
    | nil =>
      simp only [loopBuffer, Option.some.injEq] at hrun
      subst hrun
      cases g <;> rfl
    | cons b rest =>
      cases b with
      | spacer h =>
        rw [loopBuffer] at hrun
        rcases Option.map_eq_some'.mp hrun with ⟨out', hin, hout⟩
        subst hout
        cases g with
        | zero => simp only [List.length_cons] at hg; omega
        | succ g' =>
          rw [loopBuffer, ih (t + h) rest out' g' hin
            (by simp only [List.length_cons] at hg; omega)]
          rfl
      | padTop h =>
        rw [loopBuffer] at hrun
        rcases Option.map_eq_some'.mp hrun with ⟨out', hin, hout⟩
        subst hout
        cases g with
        | zero => simp only [List.length_cons] at hg; omega
        | succ g' =>
          rw [loopBuffer, ih (t + h) rest out' g' hin
            (by simp only [List.length_cons] at hg; omega)]
          rfl
      | unit h =>
        by_cases hsmall : h < 10
        · rw [loopBuffer, if_pos hsmall] at hrun
          rcases Option.map_eq_some'.mp hrun with ⟨out', hin, hout⟩
          subst hout
          cases g with
          | zero => simp only [List.length_cons] at hg; omega
          | succ g' =>
            rw [loopBuffer, if_pos hsmall,
              ih (t + h) rest out' g' hin
                (by simp only [List.length_cons] at hg; omega)]
            rfl
        · by_cases hpush : bufferPush ph t h
          · rw [loopBuffer, if_neg hsmall, if_pos hpush] at hrun
            rcases Option.map_eq_some'.mp hrun with ⟨out'', hin, hout⟩
            subst hout
            cases g with
            | zero => simp only [List.length_cons] at hg; omega
            | succ g' =>
              cases g' with
              | zero => simp only [List.length_cons] at hg; omega
              | succ g'' =>
                rw [loopBuffer, loopBuffer,
                  ih (t + (ph - jsMod t ph) + tp) (Block.unit h :: rest)
                    out'' g'' hin
                    (by simp only [List.length_cons] at hg; omega)]
                rfl
          · rw [loopBuffer, if_neg hsmall, if_neg hpush] at hrun
            rcases Option.map_eq_some'.mp hrun with ⟨out', hin, hout⟩
            subst hout
            cases g with
            | zero => simp only [List.length_cons] at hg; omega
            | succ g' =>
              rw [loopBuffer, if_neg hsmall, if_neg hpush,
                ih (t + h) rest out' g' hin
                  (by simp only [List.length_cons] at hg; omega)]
              rfl

/-- Claim C7 (amended): both while-loop variants of `addPageBreaks` — the
`BOTTOM_BUFFER` variant and the row-level variant — recognize previously
inserted spacers by their marker classes and skip them, and are idempotent:
whenever a run terminates (`some out`), re-running the same variant over
that output with enough fuel to traverse it once inserts nothing and
returns the output unchanged. -/
theorem while_variants_idempotent (ph tp : ℚ) (f : ℕ) (t : ℚ)
    (xs out : List Block) (g : ℕ) (hg : out.length ≤ g) :
    (loopRow ph tp f t xs = some out → loopRow ph tp g t out = some out)
      ∧ (loopBuffer ph tp f t xs = some out →
          loopBuffer ph tp g t out = some out) :=
  ⟨fun hrun => loopRow_rerun ph tp f t xs out g hrun hg,
    fun hrun => loopBuffer_rerun ph tp f t xs out g hrun hg⟩

/-- Witness for C7: with pageHeight 700 and topPadding 32 both while-loop
variants turn `[unit 250, unit 600]` (fuel 5) into the same 4-element
output, and re-running each with fuel 4 over that output returns it
unchanged. -/
theorem while_variants_idempotent_witness :
    (([Block.unit 250, Block.spacer 450, Block.padTop 32,
          Block.unit 600] : List Block).length ≤ 4)
      ∧ ((loopRow 700 32 5 0 [Block.unit 250, Block.unit 600]
              = some [Block.unit 250, Block.spacer 450, Block.padTop 32,
                  Block.unit 600] →
            loopRow 700 32 4 0
                [Block.unit 250, Block.spacer 450, Block.padTop 32,
                  Block.unit 600]
              = some [Block.unit 250, Block.spacer 450, Block.padTop 32,
                  Block.unit 600])
          ∧ (loopBuffer 700 32 5 0 [Block.unit 250, Block.unit 600]
                = some [Block.unit 250, Block.spacer 450, Block.padTop 32,
                    Block.unit 600] →
              loopBuffer 700 32 4 0
                  [Block.unit 250, Block.spacer 450, Block.padTop 32,
                    Block.unit 600]
                = some [Block.unit 250, Block.spacer 450, Block.padTop 32,
                    Block.unit 600]))
      ∧ loopRow 700 32 5 0 [Block.unit 250, Block.unit 600]
          = some [Block.unit 250, Block.spacer 450, Block.padTop 32,
              Block.unit 600]
      ∧ loopBuffer 700 32 5 0 [Block.unit 250, Block.unit 600]
          = some [Block.unit 250, Block.spacer 450, Block.padTop 32,
              Block.unit 600] := by
  refine ⟨by norm_num,
    while_variants_idempotent 700 32 5 0 [Block.unit 250, Block.unit 600]
      [Block.unit 250, Block.spacer 450, Block.padTop 32, Block.unit 600] 4
      (by norm_num), ?_, ?_⟩
  · norm_num [loopRow, rowPush, jsMod, Int.floor_eq_iff]
  · norm_num [loopBuffer, bufferPush, jsMod, Int.floor_eq_iff]

/-- The page-assembly loop of `customDomToPdf`: the number of page slices
that pass the blank test and are therefore added to the PDF with
`pdf.addImage` (the source's `pageAdded` flag is exactly
`0 < countAccepted`). -/
def countAccepted : List (List ℕ) → ℕ
  | [] => 0
  | p :: rest => (if isCanvasBlank p then 0 else 1) + countAccepted rest

/-- The final step of `customDomToPdf`'s then-handler: when at least one
page was added it saves and resolves, otherwise it rejects with the
no-content error. -/
def assembleOutcome (pages : List (List ℕ)) : Except String ℕ :=
  if 0 < countAccepted pages then Except.ok (countAccepted pages)
  else Except.error "No content to generate PDF"

/-- If every slice is classified blank, none is counted. -/
theorem countAccepted_eq_zero (pages : List (List ℕ))
    (hb : ∀ p ∈ pages, isCanvasBlank p = true) : countAccepted pages = 0 := by
  induction pages with
  | nil => rfl
  | cons p rest ih =>
    simp [countAccepted, hb p (List.mem_cons_self p rest),
      ih fun x hx => hb x (List.mem_cons_of_mem p hx)]

/-- Claim C3: when every candidate page slice is classified blank, the
export rejects with the specific error `No content to generate PDF` and
zero images are added to the document; moreover the outcome is never a
resolution carrying zero added pages. -/
theorem all_blank_pages_reject_no_content (pages : List (List ℕ))
    (hb : ∀ p ∈ pages, isCanvasBlank p = true) :
    assembleOutcome pages = Except.error "No content to generate PDF"
      ∧ countAccepted pages = 0
      ∧ ∀ (qs : List (List ℕ)) (n : ℕ),
          assembleOutcome qs = Except.ok n → 0 < n := by
  have hz := countAccepted_eq_zero pages hb
  refine ⟨?_, hz, ?_⟩
  · rw [assembleOutcome, hz]
    rfl
  · intro qs n hqs
    rw [assembleOutcome] at hqs
    split at hqs
    · rename_i hpos
      cases hqs
      exact hpos
    · cases hqs

/-- Witness for C3 with two blank slices: a white fully-transparent pixel
and a zero-area slice. -/
theorem all_blank_pages_reject_no_content_witness :
    (∀ p ∈ ([[255, 255, 255, 0], []] : List (List ℕ)),
        isCanvasBlank p = true)
      ∧ (assembleOutcome [[255, 255, 255, 0], []]
            = Except.error "No content to generate PDF"
          ∧ countAccepted [[255, 255, 255, 0], []] = 0
          ∧ ∀ (qs : List (List ℕ)) (n : ℕ),
              assembleOutcome qs = Except.ok n → 0 < n) :=
  ⟨by decide, all_blank_pages_reject_no_content _ (by decide)⟩

/-- Observable events of one export invocation, in order: `settled` is the
moment `resolve()` or `reject()` is called on the returned promise,
`removed` the moment the overlay is removed from `document.body`. -/
inductive OverlayEvent
  | settled
  | removed
deriving DecidableEq

/-- The four exit paths of `customDomToPdf`. -/
inductive ExportExit
  | success
  | rasterReject
  | pdfAssemblyError
  | syncSetupError
deriving DecidableEq

/-- The promise chain of `customDomToPdf` as the ordered event trace of each
exit path.  On success, `resolve()` runs inside the `then` handler and the
`finally` handler removes the overlay afterwards; likewise `reject(error)`
precedes the `finally` removal when the rasterization collaborator rejects
(`catch` handler) and when PDF assembly throws (inner `try/catch` of the
`then` handler).  Only the synchronous `catch (error)` block of the executor
removes the overlay before calling `reject(error)`. -/
def overlayEvents : ExportExit → List OverlayEvent
  | ExportExit.success => [OverlayEvent.settled, OverlayEvent.removed]
  | ExportExit.rasterReject => [OverlayEvent.settled, OverlayEvent.removed]
  | ExportExit.pdfAssemblyError => [OverlayEvent.settled, OverlayEvent.removed]
  | ExportExit.syncSetupError => [OverlayEvent.removed, OverlayEvent.settled]

/-- The ordering property asserted by the claim: the overlay removal occurs
strictly before the promise settles in the trace. -/
def removedBeforeSettled (es : List OverlayEvent) : Prop :=
  List.indexOf OverlayEvent.removed es < List.indexOf OverlayEvent.settled es

instance (es : List OverlayEvent) : Decidable (removedBeforeSettled es) :=
  inferInstanceAs (Decidable (_ < _))

/-- Claim C4 counterexample: on the rasterization-rejection path the promise
settles (the `catch` handler calls `reject(error)`) before the `finally`
handler removes the overlay, so the overlay is NOT removed before the
promise settles on that path. -/
theorem overlay_settles_before_removal_on_raster_failure :
    ¬removedBeforeSettled (overlayEvents ExportExit.rasterReject) := by
  decide

/-- Claim C4 (amended): the overlay is removed on every exit path — cleanup
is unconditional — but only the synchronous setup-error path removes it
before the promise settles; on the asynchronous paths the promise settles
first and the `finally` handler removes the overlay immediately after. -/
theorem overlay_removed_on_every_exit_path :
    ∀ p : ExportExit,
      OverlayEvent.removed ∈ overlayEvents p
        ∧ (removedBeforeSettled (overlayEvents p) ↔
            p = ExportExit.syncSetupError) := by
  intro p
  cases p <;> exact ⟨by decide, by decide⟩

end PdfExport
